import Mathlib

/-!
Verification of the link-shortener settings module (`argon/prem.py`).

The development shallowly embeds the pure computations of the module
(`TimeFormatter`, `URLValidator`, the settings-store adapter, the
`request_user_input` prompt loop and the handler write-sets) as executable
Lean definitions, and proves the specified properties about them.

Python string primitives are modelled on the ASCII range: `str.lower`,
`str.strip` and `\d` also handle non-ASCII Unicode case mappings, whitespace
and digits, but every character class the module compares against (the cancel
keyword, time strings, URL schemes) is ASCII, and the model leaves all
non-ASCII characters unchanged, matching Python on characters without case
mappings.
-/

/-- Models Python's whitespace test used by `str.strip` (ASCII range:
tab, LF, VT, FF, CR, space). -/
def pyIsSpace (c : Char) : Bool :=
  c.toNat = 32 || (9 ≤ c.toNat && c.toNat ≤ 13)

/-- Models Python's `str.lower` on a single character (ASCII range). -/
def pyToLower (c : Char) : Char :=
  if 65 ≤ c.toNat && c.toNat ≤ 90 then Char.ofNat (c.toNat + 32) else c

/-- Models Python's `str.lower`. -/
def pyLower (s : String) : String :=
  String.mk (s.data.map pyToLower)

/-- Models Python's `str.strip()` (no argument): removes leading and trailing
whitespace. -/
def pyStrip (s : String) : String :=
  String.mk (((s.data.dropWhile pyIsSpace).reverse.dropWhile pyIsSpace).reverse)

/-- ASCII decimal digit, as matched by `\d` in the module's regexes. -/
def isAsciiDigit (c : Char) : Bool :=
  48 ≤ c.toNat && c.toNat ≤ 57

namespace TimeFormatter

/-- Models the f-string `f"{hours} hour{'s' if hours > 1 else ''}"`. -/
def hourStr (hours : Nat) : String :=
  toString hours ++ " hour" ++ (if 1 < hours then "s" else "")

/-- Models the f-string `f"{minutes} minute{'s' if minutes > 1 else ''}"`. -/
def minuteStr (minutes : Nat) : String :=
  toString minutes ++ " minute" ++ (if 1 < minutes then "s" else "")

/-- Models the f-string `f"{seconds} second{'s' if seconds > 1 else ''}"`. -/
def secondStr (seconds : Nat) : String :=
  toString seconds ++ " second" ++ (if 1 < seconds then "s" else "")

/-- The `parts` list built by `TimeFormatter.format_seconds`: hours part when
`hours` is truthy, minutes part when `minutes` is truthy, seconds part only
when `seconds` is truthy and `hours` is falsy. -/
def formatParts (total_seconds : Nat) : List String :=
  let hours := total_seconds / 3600
  let minutes := (total_seconds % 3600) / 60
  let seconds := total_seconds % 60
  (if hours ≠ 0 then [hourStr hours] else []) ++
  (if minutes ≠ 0 then [minuteStr minutes] else []) ++
  (if seconds ≠ 0 ∧ hours = 0 then [secondStr seconds] else [])

/-- Models `TimeFormatter.format_seconds`: returns `"0 seconds"` for input 0,
otherwise `" ".join(parts)`. -/
def format_seconds (total_seconds : Nat) : String :=
  if total_seconds = 0 then "0 seconds"
  else String.intercalate " " (formatParts total_seconds)

/-- Seconds per unit: models the dict `conversions = {'h': 3600, 'm': 60, 's': 1}`
(the default branch is only reached for `'s'`, since the caller has already
matched the unit against `[hms]`). -/
def unitSeconds : Char → Nat
  | 'h' => 3600
  | 'm' => 60
  | _ => 1

/-- Models Python's `int()` on a string of ASCII decimal digits. -/
def digitsVal (ds : List Char) : Nat :=
  ds.foldl (fun n c => n * 10 + (c.toNat - 48)) 0

/-- Whether a string is fully matched by the regex `^(\d+)([hms])$`: one or
more digits followed by a single unit character `h`, `m` or `s`. -/
def hasTimeStringForm (s : String) : Bool :=
  match s.data.reverse with
  | [] => false
  | u :: revDigits =>
    (!revDigits.isEmpty) && revDigits.all isAsciiDigit &&
      (u == 'h' || u == 'm' || u == 's')

/-- The value computed from a string matching `^(\d+)([hms])$`:
`int(group 1) * conversions[group 2]`. -/
def timeFormValue (s : String) : Nat :=
  match s.data.reverse with
  | [] => 0
  | u :: revDigits => digitsVal revDigits.reverse * unitSeconds u

/-- Models `TimeFormatter.parse_time_string`: lowercases and strips the input,
matches it against `^(\d+)([hms])$`, and returns `digits * unit` seconds on a
match and `None` otherwise. -/
def parse_time_string (time_str : String) : Option Nat :=
  let s := pyStrip (pyLower time_str)
  if hasTimeStringForm s then some (timeFormValue s) else none

end TimeFormatter

/-- Truthiness of Python's `Optional[str]`: `None` and `""` are falsy. -/
def pyTruthyStr : Option String → Bool
  | none => false
  | some s => !(s == "")

/-- The reserved cancel keyword `request_user_input` compares replies against
(after `lower().strip()`). -/
def cancelKeyword : String := "❌ cancel"

/-- Models the test `response.text and response.text.lower().strip() == "❌ cancel"`:
a missing or empty text never matches; otherwise the lowercased, stripped text is
compared with the keyword. -/
def isCancelText : Option String → Bool
  | none => false
  | some s => (!(s == "")) && (pyStrip (pyLower s) == cancelKeyword)

/-- Outcome of one call to `validator(response.text)`: accepted, rejected with
an error message, or the validator raised an exception. -/
inductive ValidatorResult
  | ok
  | reject (msg : String)
  | err (msg : String)
deriving DecidableEq

/-- Arguments of `ShortenerManager.request_user_input` that determine its
control flow: the `prompt` text (optional), the optional `validator`, and
whether a pre-existing `prompt_message` was supplied. -/
structure SessionArgs where
  prompt : Option String
  validator : Option (Option String → ValidatorResult)
  hasPromptMessage : Bool

/-- Outcome of one `client.listen` call inside the wait loop: a timeout
(`ListenerTimeout`), a reply message carrying an optional text, or an
unexpected exception. -/
inductive WaitEvent
  | timeout
  | reply (text : Option String)
  | err
deriving DecidableEq

/-- A message sent to the user during the session, in order: the initial
prompt, the timeout notice, the cancellation notice, or a validator error
message (with the retry keyboard). -/
inductive SentMsg
  | promptMsg (text : String)
  | timeoutNotice
  | cancelNotice
  | validationError (msg : String)
deriving DecidableEq

/-- Observable outcome of a `request_user_input` run: the returned value, the
messages sent, the timeout passed to each `client.listen` call, and whether
the prompt message was deleted by the `finally` block. -/
structure RunResult where
  ret : Option String
  sent : List SentMsg
  listens : List Nat
  promptDeleted : Bool
deriving DecidableEq

/-- Whether a prompt message exists when the function exits: either one was
passed in, or `prompt` was truthy so one was sent. -/
def promptExists (args : SessionArgs) : Bool :=
  args.hasPromptMessage || pyTruthyStr args.prompt

/-- The message sent before the loop: the prompt is sent exactly when
`prompt_message is None and prompt` holds. -/
def initialSent (args : SessionArgs) : List SentMsg :=
  if !args.hasPromptMessage && pyTruthyStr args.prompt then
    [SentMsg.promptMsg (args.prompt.getD "")]
  else []

namespace ShortenerManager

/-- Models `ShortenerManager.TIMEOUT`. -/
def TIMEOUT : Nat := 60

/-- The `while True` wait loop of `request_user_input`, driven by the list of
successive `client.listen` outcomes. Each iteration listens with `TIMEOUT`;
a timeout notifies the user and returns `None`; a cancel reply notifies and
returns `None`; with no validator the reply text is returned as is; an
accepted reply is returned; a rejected reply sends the error message and
loops; an unexpected exception (from `listen` or from the validator) is
caught by the outer `except` and yields `None`. Every exit records the
`finally`-block deletion of the prompt message (`promptDeleted`). An event
list too short to finish the loop yields `none` (the real loop always
receives another `listen` outcome). -/
def runLoop (args : SessionArgs) :
    List WaitEvent → List SentMsg → List Nat → Option RunResult
  | [], _, _ => none
  | e :: rest, sent, listens =>
    match e with
    | WaitEvent.timeout =>
      some ⟨none, sent ++ [SentMsg.timeoutNotice],
        listens ++ [TIMEOUT], promptExists args⟩
    | WaitEvent.err =>
      some ⟨none, sent, listens ++ [TIMEOUT], promptExists args⟩
    | WaitEvent.reply t =>
      if isCancelText t then
        some ⟨none, sent ++ [SentMsg.cancelNotice],
          listens ++ [TIMEOUT], promptExists args⟩
      else
        match args.validator with
        | none => some ⟨t, sent, listens ++ [TIMEOUT], promptExists args⟩
        | some v =>
          match v t with
          | ValidatorResult.ok =>
            some ⟨t, sent, listens ++ [TIMEOUT], promptExists args⟩
          | ValidatorResult.reject m =>
            runLoop args rest (sent ++ [SentMsg.validationError m])
              (listens ++ [TIMEOUT])
          | ValidatorResult.err _ =>
            some ⟨none, sent, listens ++ [TIMEOUT], promptExists args⟩

/-- Models `ShortenerManager.request_user_input`: send the prompt if needed,
then run the wait loop. -/
def request_user_input (args : SessionArgs) (events : List WaitEvent) :
    Option RunResult :=
  runLoop args events (initialSent args) []

end ShortenerManager

/-- A value written to the settings store. -/
inductive StoreValue
  | str (s : String)
  | bool (b : Bool)
  | none
deriving DecidableEq

/-- Models Python's `str()` applied to `Optional[int]` (`str(None) = "None"`). -/
def pyStrOfOptNat : Option Nat → String
  | Option.none => "None"
  | some n => toString n

/-- Truthiness of `config.short_enabled : Optional[bool]`. -/
def pyTruthyOptBool : Option Bool → Bool
  | Option.none => false
  | some b => b

/-- The `set_variable` calls performed by the website branch of `short2` as a
function of the session result: `if website:` guards the single write. -/
def short2WebWrites : Option String → List (String × StoreValue)
  | Option.none => []
  | some w => if w == "" then [] else [("website", StoreValue.str w)]

/-- The `set_variable` calls performed by the API branch of `short2` as a
function of the session result: `if api_key:` guards the single write. -/
def short2ApiWrites : Option String → List (String × StoreValue)
  | Option.none => []
  | some k => if k == "" then [] else [("api", StoreValue.str k)]

/-- The `set_variable` calls performed by the 24h branch of `short4` as a
function of the loaded `short_enabled` flag and the session result:
`if time_input:` guards the writes of `token_time`, conditionally `short`,
and `mode`. -/
def short4TimeWrites (short_enabled : Option Bool) :
    Option String → List (String × StoreValue)
  | Option.none => []
  | some t =>
    if t == "" then []
    else
      [("token_time",
        StoreValue.str (pyStrOfOptNat (TimeFormatter.parse_time_string t)))] ++
      (if !pyTruthyOptBool short_enabled then [("short", StoreValue.bool true)]
       else []) ++
      [("mode", StoreValue.str "24")]

/-- A concrete validator that rejects every input, used as witness data. -/
def alwaysRejectValidator : Option String → ValidatorResult :=
  fun _ => ValidatorResult.reject "invalid"

/-- Modelled from the claim's words: two strings are equal up to case and
whitespace differences when they agree after lowercasing and discarding
whitespace. -/
def eqUpToCaseAndWhitespace (a b : String) : Bool :=
  ((a.data.filter (fun c => !pyIsSpace c)).map pyToLower) ==
    ((b.data.filter (fun c => !pyIsSpace c)).map pyToLower)

/-- The external key-value store object `kingdb` (the `database.database`
collaborator), as the adapter sees it: each operation either returns normally
or raises an error, which the model carries in `Except`. -/
structure KingDB where
  get_var : String → StoreValue → Except String StoreValue
  set_var : String → StoreValue → Except String Unit

/-- Models the module-level helper `get_variable(key, default)`:
`return await kingdb.get_variable(key, default)`, with no retry, caching or
error handling. -/
def get_variable (db : KingDB) (key : String) (default : StoreValue) :
    Except String StoreValue :=
  db.get_var key default

/-- Models the module-level helper `set_variable(key, value)`:
`await kingdb.set_variable(key, value)`, with no retry, caching or error
handling. -/
def set_variable (db : KingDB) (key : String) (value : StoreValue) :
    Except String Unit :=
  db.set_var key value

/-- A concrete store whose operations always fail, used as witness data. -/
def failingDB : KingDB :=
  ⟨fun _ _ => Except.error "boom", fun _ _ => Except.error "boom"⟩

/-- ASCII letter, as tested by `url[0].isascii() and url[0].isalpha()`. -/
def isAsciiAlpha (c : Char) : Bool :=
  (65 ≤ c.toNat && c.toNat ≤ 90) || (97 ≤ c.toNat && c.toNat ≤ 122)

namespace UrlParse

/-- The C0-control-or-space class `urlsplit` strips from both ends of the URL. -/
def isC0OrSpace (c : Char) : Bool :=
  c.toNat ≤ 32

/-- The characters `urlsplit` deletes anywhere in the URL (tab, LF, CR). -/
def isTabOrNewline (c : Char) : Bool :=
  c.toNat = 9 || c.toNat = 10 || c.toNat = 13

/-- The initial cleanup `urlsplit` performs on the URL: strip C0 controls and
spaces from the left only (CPython lstrips deliberately, preserving trailing
space), then delete tab, LF and CR everywhere. -/
def cleanUrl (l : List Char) : List Char :=
  (l.dropWhile isC0OrSpace).filter (fun c => !isTabOrNewline c)

/-- ASCII hexadecimal digit (`_HEX_DIGITS` in `ipaddress`). -/
def isAsciiHexDigit (c : Char) : Bool :=
  isAsciiDigit c || (97 ≤ c.toNat && c.toNat ≤ 102) ||
    (65 ≤ c.toNat && c.toNat ≤ 70)

/-- Models Python's `str.split(sep)` for a one-character separator, keeping
empty pieces (`"".split(sep)` is `[""]`). -/
def splitOn (sep : Char) : List Char → List (List Char)
  | [] => [[]]
  | c :: rest =>
    match splitOn sep rest with
    | [] => [[c]]
    | h :: t => if c == sep then [] :: h :: t else (c :: h) :: t

/-- Models `IPv6Address._parse_hextet` as a validity test: one to four ASCII
hex digits. -/
def validHextet (p : List Char) : Bool :=
  (!p.isEmpty) && p.all isAsciiHexDigit && p.length ≤ 4

/-- Models Python's `int()` on a string of ASCII decimal digits. -/
def octetVal (p : List Char) : Nat :=
  p.foldl (fun n c => n * 10 + (c.toNat - 48)) 0

/-- Models `IPv4Address._parse_octet` as a validity test: one to three ASCII
decimal digits, no leading zero except `"0"` itself, value at most 255. -/
def validOctet (p : List Char) : Bool :=
  (!p.isEmpty) && p.all isAsciiDigit && p.length ≤ 3 &&
    (p == ['0'] || p.headD '0' != '0') && octetVal p ≤ 255

/-- Models `IPv4Address._ip_int_from_string` as a validity test: a non-empty
string of exactly four valid octets separated by dots. -/
def isValidIPv4 (p : List Char) : Bool :=
  (!p.isEmpty) && (splitOn '.' p).length == 4 && (splitOn '.' p).all validOctet

/-- The hextet-counting stage of `IPv6Address._ip_int_from_string`, applied
after any IPv4 suffix has been replaced by two hextets: at most 9 parts; at
most one empty interior part (the `::`); an empty endpoint only next to the
`::`; with a `::` at most 7 other parts, without one exactly 8; and every
counted part a valid hextet. -/
def ipv6Hextets (parts : List (List Char)) : Bool :=
  let n := parts.length
  if n > 9 then false
  else
    let interior := (parts.drop 1).dropLast
    match interior.findIdx? (fun p => p.isEmpty) with
    | none => n == 8 && parts.all validHextet
    | some i0 =>
      let i := i0 + 1
      if (interior.filter (fun p => p.isEmpty)).length != 1 then false
      else
        let first := (parts.head?).getD ['x']
        let last := (parts.getLast?).getD ['x']
        if first.isEmpty && i != 1 then false
        else if last.isEmpty && i != n - 2 then false
        else
          let hi := if first.isEmpty then i - 1 else i
          let lo := if last.isEmpty then n - i - 2 else n - i - 1
          if hi + lo > 7 then false
          else
            (parts.take hi).all validHextet &&
              (parts.drop (n - lo)).all validHextet

/-- Models `IPv6Address._ip_int_from_string` as a validity test: non-empty, at
least three colon-separated parts, an optional embedded IPv4 suffix (which
must itself be valid and counts as two hextets), then the hextet rules. -/
def ipv6PartsValid (addr : List Char) : Bool :=
  if addr.isEmpty then false
  else
    let parts0 := splitOn ':' addr
    if parts0.length < 3 then false
    else
      let lastP := (parts0.getLast?).getD []
      if '.' ∈ lastP then
        if isValidIPv4 lastP then ipv6Hextets (parts0.dropLast ++ [['0'], ['0']])
        else false
      else ipv6Hextets parts0

/-- Models `IPv6Address.__init__` on a string as a validity test: no `/`, an
optional `%scope` suffix after the first `%` (the scope must be non-empty and
contain no further `%`), then a valid address part. -/
def isValidIPv6 (s : List Char) : Bool :=
  if '/' ∈ s then false
  else
    match s.findIdx? (fun c => c == '%') with
    | none => ipv6PartsValid s
    | some i =>
      let scope := s.drop (i + 1)
      if scope.isEmpty || '%' ∈ scope then false
      else ipv6PartsValid (s.take i)

/-- Models the IPvFuture regex of `_check_bracketed_host`,
`\Av[a-fA-F0-9]+\..+\Z`: a `v`, one or more hex digits, a dot, then at least
one more character, none of them a newline (the only character `.` does not
match). The maximal hex run is equivalent to the regex's backtracking one
because a dot is not a hex digit. -/
def ipvFutureOk (host : List Char) : Bool :=
  match host with
  | 'v' :: rest =>
    (!(rest.takeWhile isAsciiHexDigit).isEmpty) &&
      ((rest.dropWhile isAsciiHexDigit).headD ' ' == '.') &&
      (!((rest.dropWhile isAsciiHexDigit).drop 1).isEmpty) &&
      ((rest.dropWhile isAsciiHexDigit).drop 1).all (fun c => c != '\n')
  | _ => false

/-- The bracketed host `urlsplit` extracts from the netloc:
`netloc.partition('[')[2].partition(']')[0]`. -/
def bracketedHost (netloc : List Char) : List Char :=
  ((netloc.dropWhile (fun c => c != '[')).drop 1).takeWhile (fun c => c != ']')

/-- Models `_check_bracketed_host` (CPython 3.11+) as a validity test: a host
starting with `v` must be an IPvFuture literal; any other host is checked with
`ipaddress.ip_address`, which raises unless it is a valid IPv4 or IPv6
address, and a valid IPv4 address is then rejected explicitly — so the host
passes exactly when it is a valid IPv6 address (an IPv4-valid string is never
IPv6-valid). -/
def checkBracketedHost (host : List Char) : Bool :=
  if host.headD ' ' == 'v' then ipvFutureOk host
  else isValidIPv6 host

/-- Characters allowed in a scheme (`scheme_chars`): ASCII letters, digits,
`+`, `-` and `.`. -/
def isSchemeChar (c : Char) : Bool :=
  isAsciiAlpha c || isAsciiDigit c || c == '+' || c == '-' || c == '.'

/-- Scheme extraction of `urlsplit`: when the URL contains a `:` preceded by a
non-empty run of scheme characters starting with an ASCII letter, that run,
lowercased, is the scheme and the rest follows the colon; otherwise the scheme
is empty and the URL is left whole. -/
def splitScheme (l : List Char) : String × List Char :=
  match l.findIdx? (fun c => c == ':') with
  | some i =>
    if 0 < i ∧ isAsciiAlpha (l.headD ' ') = true ∧
        (l.take i).all isSchemeChar = true then
      (String.mk ((l.take i).map pyToLower), l.drop (i + 1))
    else ("", l)
  | none => ("", l)

/-- Netloc extraction (`_splitnetloc`, applied after the leading `//`):
everything up to the first `/`, `?` or `#`. -/
def splitNetloc (l : List Char) : List Char × List Char :=
  let i := l.findIdx (fun c => c == '/' || c == '?' || c == '#')
  (l.take i, l.drop i)

/-- The parameter split `urlparse` applies to the path (`_splitparams`): when
the path contains `;`, anything from the first `;` of the last segment on is
removed. -/
def splitParams (l : List Char) : List Char :=
  if ';' ∈ l then
    if '/' ∈ l then
      let j := l.length - 1 - l.reverse.findIdx (fun c => c == '/')
      match (l.drop j).findIdx? (fun c => c == ';') with
      | some k => l.take (j + k)
      | none => l
    else l.take (l.findIdx (fun c => c == ';'))
  else l

/-- The fields of the parse result that `is_valid_website_url` reads. -/
structure ParseResult where
  scheme : String
  netloc : String
  path : String
deriving DecidableEq

/-- The part of `urlsplit`/`urlparse` that runs after scheme extraction:
split off the netloc after `//`, raising `ValueError` on mismatched IPv6
brackets and on an invalid bracketed host (`_check_bracketed_host`), as
CPython 3.11 does; then drop the fragment and the query and remove path
parameters. -/
def parseAfterScheme (scheme : String) (rest : List Char) :
    Except String ParseResult :=
  let nr := if rest.take 2 = ['/', '/'] then splitNetloc (rest.drop 2)
            else ([], rest)
  if (('[' ∈ nr.1) ∧ (']' ∉ nr.1)) ∨ ((']' ∈ nr.1) ∧ ('[' ∉ nr.1)) then
    Except.error "Invalid IPv6 URL"
  else if ('[' ∈ nr.1) ∧ (']' ∈ nr.1) ∧
      checkBracketedHost (bracketedHost nr.1) = false then
    Except.error "invalid bracketed host"
  else
    Except.ok ⟨scheme, String.mk nr.1,
      String.mk (splitParams
        ((nr.2.takeWhile (fun c => c != '#')).takeWhile (fun c => c != '?')))⟩

/-- Models CPython 3.11's `urllib.parse.urlparse` restricted to the scheme,
netloc and path fields: clean the URL (lstrip controls and spaces, delete
tab/LF/CR), split off the scheme, then parse the remainder. The only omission
is the NFKC netloc check `_checknetloc`, which returns immediately for every
ASCII netloc (`if not netloc or netloc.isascii(): return`) and so is
unreachable within the ASCII-range modeling declared in the header. -/
def pyUrlparse (url : String) : Except String ParseResult :=
  parseAfterScheme (splitScheme (cleanUrl url.data)).1
    (splitScheme (cleanUrl url.data)).2

/-- Models `str.strip("/")`: removes leading and trailing slashes. -/
def stripSlashes (s : String) : String :=
  String.mk (((s.data.dropWhile (fun c => c == '/')).reverse.dropWhile
    (fun c => c == '/')).reverse)

end UrlParse

namespace URLValidator

/-- Models `URLValidator.is_valid_website_url`: parse the URL; on success
require scheme `https`, a non-empty netloc, and a path that is empty apart
from slashes; when parsing raises, the `except` clause returns `False`. -/
def is_valid_website_url (url : String) : Bool :=
  match UrlParse.pyUrlparse url with
  | Except.ok p =>
    p.scheme == "https" && !(p.netloc == "") &&
      (UrlParse.stripSlashes p.path == "")
  | Except.error _ => false

end URLValidator

theorem pyToLower_digit (c : Char) (h : isAsciiDigit c = true) : pyToLower c = c := by
  simp only [isAsciiDigit, Bool.and_eq_true, decide_eq_true_eq] at h
  unfold pyToLower
  split
  · next hc =>
    simp only [Bool.and_eq_true, decide_eq_true_eq] at hc
    omega
  · rfl

theorem pyIsSpace_digit (c : Char) (h : isAsciiDigit c = true) : pyIsSpace c = false := by
  simp only [isAsciiDigit, Bool.and_eq_true, decide_eq_true_eq] at h
  simp only [pyIsSpace, Bool.or_eq_false_iff]
  constructor
  · simp only [decide_eq_false_iff_not]
    omega
  · simp only [Bool.and_eq_false_iff, decide_eq_false_iff_not]
    omega

theorem dropWhile_eq_self_of_all {α : Type} {p : α → Bool} {l : List α}
    (h : ∀ a ∈ l, p a = false) : l.dropWhile p = l := by
  cases l with
  | nil => rfl
  | cons a t =>
    rw [List.dropWhile_cons_of_neg]
    simp [h a (List.mem_cons_self a t)]

theorem pyStrip_eq_self_of_no_space {s : String}
    (h : ∀ c ∈ s.data, pyIsSpace c = false) : pyStrip s = s := by
  unfold pyStrip
  rw [dropWhile_eq_self_of_all h,
    dropWhile_eq_self_of_all (fun c hc => h c (List.mem_reverse.mp hc)),
    List.reverse_reverse]

theorem pyLower_eq_self_of_fixed {s : String}
    (h : ∀ c ∈ s.data, pyToLower c = c) : pyLower s = s := by
  unfold pyLower
  rw [List.map_congr_left h, List.map_id']

theorem timeForm_chars_lower (s : String) (h : TimeFormatter.hasTimeStringForm s = true) :
    ∀ c ∈ s.data, pyToLower c = c := by
  rcases hrev : s.data.reverse with _ | ⟨u, revDigits⟩
  · simp [TimeFormatter.hasTimeStringForm, hrev] at h
  · simp only [TimeFormatter.hasTimeStringForm, hrev, Bool.and_eq_true,
      Bool.or_eq_true, beq_iff_eq] at h
    intro c hc
    have hs : s.data = revDigits.reverse ++ [u] := by
      have := congrArg List.reverse hrev
      simpa using this
    rw [hs] at hc
    rcases List.mem_append.mp hc with hd | hu
    · exact pyToLower_digit c (List.all_eq_true.mp h.1.2 c (List.mem_reverse.mp hd))
    · have : c = u := by simpa using hu
      subst this
      rcases h.2 with (h2 | h2) | h2 <;> subst h2 <;> decide

theorem timeForm_chars_nospace (s : String) (h : TimeFormatter.hasTimeStringForm s = true) :
    ∀ c ∈ s.data, pyIsSpace c = false := by
  rcases hrev : s.data.reverse with _ | ⟨u, revDigits⟩
  · simp [TimeFormatter.hasTimeStringForm, hrev] at h
  · simp only [TimeFormatter.hasTimeStringForm, hrev, Bool.and_eq_true,
      Bool.or_eq_true, beq_iff_eq] at h
    intro c hc
    have hs : s.data = revDigits.reverse ++ [u] := by
      have := congrArg List.reverse hrev
      simpa using this
    rw [hs] at hc
    rcases List.mem_append.mp hc with hd | hu
    · exact pyIsSpace_digit c (List.all_eq_true.mp h.1.2 c (List.mem_reverse.mp hd))
    · have : c = u := by simpa using hu
      subst this
      rcases h.2 with (h2 | h2) | h2 <;> subst h2 <;> decide

theorem normalize_fixed_of_timeForm (s : String)
    (h : TimeFormatter.hasTimeStringForm s = true) :
    pyStrip (pyLower s) = s := by
  rw [pyLower_eq_self_of_fixed (timeForm_chars_lower s h),
    pyStrip_eq_self_of_no_space (timeForm_chars_nospace s h)]

/-- C6 (amended): every string exactly of the form `<digits><h|m|s>` parses to
its digit value times 3600 / 60 / 1 for units `h` / `m` / `s`; the listed
examples hold; and every string whose lowercased, whitespace-trimmed form is
not of that shape yields no match. -/
theorem c6_parse_time_string :
    (∀ s : String, TimeFormatter.hasTimeStringForm s = true →
      TimeFormatter.parse_time_string s = some (TimeFormatter.timeFormValue s)) ∧
    (∀ s : String, TimeFormatter.hasTimeStringForm (pyStrip (pyLower s)) = false →
      TimeFormatter.parse_time_string s = none) ∧
    TimeFormatter.parse_time_string "1h" = some 3600 ∧
    TimeFormatter.parse_time_string "30m" = some 1800 ∧
    TimeFormatter.parse_time_string "45s" = some 45 ∧
    TimeFormatter.parse_time_string "abc" = none ∧
    TimeFormatter.parse_time_string "1x" = none ∧
    TimeFormatter.parse_time_string "" = none := by
  refine ⟨?_, ?_, by decide, by decide, by decide, by decide, by decide, by decide⟩
  · intro s h
    simp [TimeFormatter.parse_time_string, normalize_fixed_of_timeForm s h, h]
  · intro s h
    simp [TimeFormatter.parse_time_string, h]

/-- C6 counterexample: `"1H"` is not of the form `<digits><h|m|s>` (its unit
letter is uppercase), yet `parse_time_string` returns `3600` rather than the
`None` the claim requires for every string not of that form. -/
theorem c6_counterexample :
    TimeFormatter.hasTimeStringForm "1H" = false ∧
    TimeFormatter.parse_time_string "1H" = some 3600 := by
  constructor
  · decide
  · decide

/-- C6 witness: the amended theorem applied at the concrete inputs `"7h"`
(positive direction) and `"zz"` (negative direction). -/
theorem c6_witness :
    TimeFormatter.parse_time_string "7h" = some (TimeFormatter.timeFormValue "7h") ∧
    TimeFormatter.parse_time_string "zz" = none :=
  ⟨c6_parse_time_string.1 "7h" (by decide),
   c6_parse_time_string.2.1 "zz" (by decide)⟩

/-- C7: `format_seconds` maps 0 to `"0 seconds"`, 3661 to `"1 hour 1 minute"`,
and whenever the hours component is non-zero the parts list consists of the
hour part and possibly the minute part only, never a seconds part. -/
theorem c7_format_seconds :
    TimeFormatter.format_seconds 0 = "0 seconds" ∧
    TimeFormatter.format_seconds 3661 = "1 hour 1 minute" ∧
    ∀ n : Nat, n / 3600 ≠ 0 →
      TimeFormatter.formatParts n =
        TimeFormatter.hourStr (n / 3600) ::
          (if (n % 3600) / 60 ≠ 0 then [TimeFormatter.minuteStr ((n % 3600) / 60)]
           else []) := by
  refine ⟨rfl, by decide, ?_⟩
  intro n h
  simp only [TimeFormatter.formatParts]
  rw [if_pos h, if_neg (fun hc : n % 60 ≠ 0 ∧ n / 3600 = 0 => h hc.2)]
  simp

/-- C7 witness: the theorem applied at the concrete input 3661. -/
theorem c7_witness :
    (3661 : Nat) / 3600 ≠ 0 ∧
    TimeFormatter.formatParts 3661 =
      TimeFormatter.hourStr (3661 / 3600) ::
        (if (3661 % 3600) / 60 ≠ 0 then [TimeFormatter.minuteStr ((3661 % 3600) / 60)]
         else []) :=
  ⟨by decide, c7_format_seconds.2.2 3661 (by decide)⟩

theorem runLoop_deleted (args : SessionArgs) :
    ∀ (events : List WaitEvent) (sent : List SentMsg) (listens : List Nat)
      (r : RunResult),
      ShortenerManager.runLoop args events sent listens = some r →
      r.promptDeleted = promptExists args := by
  intro events
  induction events with
  | nil =>
    intro sent listens r h
    simp [ShortenerManager.runLoop] at h
  | cons e rest ih =>
    intro sent listens r h
    cases e with
    | timeout =>
      simp only [ShortenerManager.runLoop, Option.some.injEq] at h
      subst h
      rfl
    | err =>
      simp only [ShortenerManager.runLoop, Option.some.injEq] at h
      subst h
      rfl
    | reply t =>
      simp only [ShortenerManager.runLoop] at h
      split at h
      · simp only [Option.some.injEq] at h
        subst h
        rfl
      · split at h
        · simp only [Option.some.injEq] at h
          subst h
          rfl
        · split at h
          · simp only [Option.some.injEq] at h
            subst h
            rfl
          · exact ih _ _ _ h
          · simp only [Option.some.injEq] at h
            subst h
            rfl

theorem runLoop_listens (args : SessionArgs) :
    ∀ (events : List WaitEvent) (sent : List SentMsg) (listens : List Nat)
      (r : RunResult),
      ShortenerManager.runLoop args events sent listens = some r →
      listens.all (· == 60) = true → r.listens.all (· == 60) = true := by
  intro events
  induction events with
  | nil =>
    intro sent listens r h _
    simp [ShortenerManager.runLoop] at h
  | cons e rest ih =>
    intro sent listens r h hall
    have hall' : (listens ++ [ShortenerManager.TIMEOUT]).all (· == 60) = true := by
      simp only [List.all_append, hall, Bool.true_and]
      decide
    cases e with
    | timeout =>
      simp only [ShortenerManager.runLoop, Option.some.injEq] at h
      subst h
      exact hall'
    | err =>
      simp only [ShortenerManager.runLoop, Option.some.injEq] at h
      subst h
      exact hall'
    | reply t =>
      simp only [ShortenerManager.runLoop] at h
      split at h
      · simp only [Option.some.injEq] at h
        subst h
        exact hall'
      · split at h
        · simp only [Option.some.injEq] at h
          subst h
          exact hall'
        · split at h
          · simp only [Option.some.injEq] at h
            subst h
            exact hall'
          · exact ih _ _ _ h hall'
          · simp only [Option.some.injEq] at h
            subst h
            exact hall'

theorem runLoop_reject_none (args : SessionArgs) (v : Option String → ValidatorResult)
    (hv : args.validator = some v) (hno : ∀ t, v t ≠ ValidatorResult.ok) :
    ∀ (events : List WaitEvent) (sent : List SentMsg) (listens : List Nat)
      (r : RunResult),
      ShortenerManager.runLoop args events sent listens = some r →
      r.ret = none := by
  intro events
  induction events with
  | nil =>
    intro sent listens r h
    simp [ShortenerManager.runLoop] at h
  | cons e rest ih =>
    intro sent listens r h
    cases e with
    | timeout =>
      simp only [ShortenerManager.runLoop, Option.some.injEq] at h
      subst h
      rfl
    | err =>
      simp only [ShortenerManager.runLoop, Option.some.injEq] at h
      subst h
      rfl
    | reply t =>
      simp only [ShortenerManager.runLoop] at h
      split at h
      · simp only [Option.some.injEq] at h
        subst h
        rfl
      · rw [hv] at h
        simp only at h
        split at h
        · next hok =>
          exact absurd hok (hno t)
        · exact ih _ _ _ h
        · simp only [Option.some.injEq] at h
          subst h
          rfl

/-- C1: the website, API-key and 24h-time handlers call `set_variable` only
when `request_user_input` returned a non-`None` value, and a session whose
validator never accepts returns no value, so cancelled, timed-out or
always-rejected sessions leave the store unchanged. -/
theorem c1_no_persist_without_value :
    (∀ res : Option String,
      (short2WebWrites res ≠ [] ∨ short2ApiWrites res ≠ [] ∨
        (∃ se, short4TimeWrites se res ≠ [])) → res ≠ none) ∧
    (∀ (args : SessionArgs) (v : Option String → ValidatorResult)
        (events : List WaitEvent) (r : RunResult),
      args.validator = some v → (∀ t, v t ≠ ValidatorResult.ok) →
      ShortenerManager.request_user_input args events = some r →
      r.ret = none ∧ short2WebWrites r.ret = [] ∧ short2ApiWrites r.ret = [] ∧
        ∀ se, short4TimeWrites se r.ret = []) := by
  constructor
  · intro res h
    cases res with
    | none =>
      rcases h with h | h | ⟨se, h⟩ <;> simp [short2WebWrites, short2ApiWrites,
        short4TimeWrites] at h
    | some s => simp
  · intro args v events r hv hno h
    have hret : r.ret = none :=
      runLoop_reject_none args v hv hno events (initialSent args) [] r h
    rw [hret]
    exact ⟨rfl, rfl, rfl, fun se => rfl⟩

/-- C1 witness: the theorem applied to a concrete always-rejecting session
that times out after one rejected reply, and to a concrete non-empty write
set. -/
theorem c1_witness :
    (some "x" : Option String) ≠ none ∧
    ((⟨none, [SentMsg.validationError "invalid", SentMsg.timeoutNotice],
        [60, 60], true⟩ : RunResult).ret = none ∧
      short2WebWrites (⟨none, [SentMsg.validationError "invalid",
        SentMsg.timeoutNotice], [60, 60], true⟩ : RunResult).ret = [] ∧
      short2ApiWrites (⟨none, [SentMsg.validationError "invalid",
        SentMsg.timeoutNotice], [60, 60], true⟩ : RunResult).ret = [] ∧
      ∀ se, short4TimeWrites se (⟨none, [SentMsg.validationError "invalid",
        SentMsg.timeoutNotice], [60, 60], true⟩ : RunResult).ret = []) :=
  ⟨c1_no_persist_without_value.1 (some "x") (Or.inl (by decide)),
   c1_no_persist_without_value.2 ⟨Option.none, some alwaysRejectValidator, true⟩
     alwaysRejectValidator [WaitEvent.reply (some "a"), WaitEvent.timeout] _
     rfl (fun t => by simp [alwaysRejectValidator]) rfl⟩

/-- C2: on every terminating run of `request_user_input`, if a prompt message
exists (supplied or sent) it is deleted before the function returns. -/
theorem c2_prompt_deleted :
    ∀ (args : SessionArgs) (events : List WaitEvent) (r : RunResult),
      ShortenerManager.request_user_input args events = some r →
      promptExists args = true → r.promptDeleted = true := by
  intro args events r h hp
  rw [runLoop_deleted args events (initialSent args) [] r h, hp]

/-- C2 witness: the theorem applied to a concrete run that sends a prompt and
then times out. -/
theorem c2_witness :
    (⟨none, [SentMsg.promptMsg "p", SentMsg.timeoutNotice], [60], true⟩ :
      RunResult).promptDeleted = true :=
  c2_prompt_deleted ⟨some "p", Option.none, false⟩ [WaitEvent.timeout] _ rfl rfl

/-- C3: the listen timeout constant is 60 seconds and every wait in a run uses
it; when the next wait times out the user is notified and the session returns
`None`; when the next wait raises an unexpected error it is caught and the
session returns `None` instead of propagating. -/
theorem c3_timeout_sixty_and_fail_safe :
    ShortenerManager.TIMEOUT = 60 ∧
    (∀ (args : SessionArgs) (events : List WaitEvent) (r : RunResult),
      ShortenerManager.request_user_input args events = some r →
      r.listens.all (· == 60) = true) ∧
    (∀ (args : SessionArgs) (rest : List WaitEvent) (sent : List SentMsg)
        (listens : List Nat),
      ShortenerManager.runLoop args (WaitEvent.timeout :: rest) sent listens =
        some ⟨none, sent ++ [SentMsg.timeoutNotice],
          listens ++ [ShortenerManager.TIMEOUT], promptExists args⟩) ∧
    (∀ (args : SessionArgs) (rest : List WaitEvent) (sent : List SentMsg)
        (listens : List Nat),
      ShortenerManager.runLoop args (WaitEvent.err :: rest) sent listens =
        some ⟨none, sent, listens ++ [ShortenerManager.TIMEOUT],
          promptExists args⟩) := by
  refine ⟨rfl, ?_, fun args rest sent listens => rfl,
    fun args rest sent listens => rfl⟩
  intro args events r h
  exact runLoop_listens args events (initialSent args) [] r h rfl

/-- C3 witness: the theorem applied to a concrete run consisting of one
timed-out wait. -/
theorem c3_witness :
    (⟨none, [SentMsg.timeoutNotice], [60], false⟩ : RunResult).listens.all
      (· == 60) = true :=
  c3_timeout_sixty_and_fail_safe.2.1 ⟨Option.none, Option.none, false⟩
    [WaitEvent.timeout] _ rfl

/-- C4 counterexample: the reply text `"❌  cancel"` (two internal spaces)
equals the cancel keyword up to case and whitespace differences, yet a
validator-free session returns it as a value instead of the `None` the claim
requires: only leading and trailing whitespace is stripped before the
comparison. -/
theorem c4_counterexample :
    eqUpToCaseAndWhitespace "❌  cancel" cancelKeyword = true ∧
    (ShortenerManager.request_user_input ⟨Option.none, Option.none, true⟩
        [WaitEvent.reply (some "❌  cancel")]).map RunResult.ret =
      some (some "❌  cancel") := by
  constructor
  · decide
  · rfl

/-- C4 (amended): for every reply whose text equals the cancel keyword after
lowercasing and stripping leading and trailing whitespace, the session sends
the cancellation notice and returns `None`, regardless of any validator. -/
theorem c4_cancel_keyword :
    ∀ (args : SessionArgs) (t : String) (rest : List WaitEvent)
      (sent : List SentMsg) (listens : List Nat),
      pyStrip (pyLower t) = cancelKeyword →
      ShortenerManager.runLoop args (WaitEvent.reply (some t) :: rest) sent
          listens =
        some ⟨none, sent ++ [SentMsg.cancelNotice],
          listens ++ [ShortenerManager.TIMEOUT], promptExists args⟩ ∧
      ShortenerManager.request_user_input args (WaitEvent.reply (some t) :: rest) =
        some ⟨none, initialSent args ++ [SentMsg.cancelNotice],
          [ShortenerManager.TIMEOUT], promptExists args⟩ := by
  intro args t rest sent listens ht
  have hne : (t == "") = false := by
    rcases hb : t == "" with _ | _
    · rfl
    · exfalso
      have he : t = "" := by simpa using hb
      rw [he] at ht
      exact absurd ht (by decide)
  have hcancel : isCancelText (some t) = true := by
    simp [isCancelText, hne, ht]
  constructor
  · simp [ShortenerManager.runLoop, hcancel]
  · simp [ShortenerManager.request_user_input, ShortenerManager.runLoop, hcancel]

/-- C4 witness: the amended theorem applied to the concrete reply
`" ❌ Cancel "`, which differs from the keyword in case and surrounding
whitespace only. -/
theorem c4_witness :
    ShortenerManager.runLoop ⟨Option.none, Option.none, false⟩
        [WaitEvent.reply (some " ❌ Cancel ")] [] [] =
      some ⟨none, [] ++ [SentMsg.cancelNotice],
        [] ++ [ShortenerManager.TIMEOUT],
        promptExists ⟨Option.none, Option.none, false⟩⟩ ∧
    ShortenerManager.request_user_input ⟨Option.none, Option.none, false⟩
        [WaitEvent.reply (some " ❌ Cancel ")] =
      some ⟨none, initialSent ⟨Option.none, Option.none, false⟩ ++
          [SentMsg.cancelNotice], [ShortenerManager.TIMEOUT],
        promptExists ⟨Option.none, Option.none, false⟩⟩ :=
  c4_cancel_keyword ⟨Option.none, Option.none, false⟩ " ❌ Cancel " [] [] []
    (by decide)

/-- C5: with no validator, the session returns the text of the first
non-cancel reply exactly as received (including a missing text), after a
single wait and with no further messages. -/
theorem c5_no_validator_verbatim :
    ∀ (args : SessionArgs) (t : Option String) (rest : List WaitEvent)
      (sent : List SentMsg) (listens : List Nat),
      args.validator = none → isCancelText t = false →
      ShortenerManager.runLoop args (WaitEvent.reply t :: rest) sent listens =
        some ⟨t, sent, listens ++ [ShortenerManager.TIMEOUT],
          promptExists args⟩ ∧
      ShortenerManager.request_user_input args (WaitEvent.reply t :: rest) =
        some ⟨t, initialSent args, [ShortenerManager.TIMEOUT],
          promptExists args⟩ := by
  intro args t rest sent listens hv hc
  constructor <;>
    simp [ShortenerManager.runLoop, ShortenerManager.request_user_input, hc, hv]

/-- C5 witness: the theorem applied to the concrete reply `"hello"` in a
validator-free session. -/
theorem c5_witness :
    ShortenerManager.runLoop ⟨Option.none, Option.none, false⟩
        [WaitEvent.reply (some "hello")] [] [] =
      some ⟨some "hello", [], [] ++ [ShortenerManager.TIMEOUT],
        promptExists ⟨Option.none, Option.none, false⟩⟩ ∧
    ShortenerManager.request_user_input ⟨Option.none, Option.none, false⟩
        [WaitEvent.reply (some "hello")] =
      some ⟨some "hello", initialSent ⟨Option.none, Option.none, false⟩,
        [ShortenerManager.TIMEOUT], promptExists ⟨Option.none, Option.none, false⟩⟩ :=
  c5_no_validator_verbatim ⟨Option.none, Option.none, false⟩ (some "hello") []
    [] [] rfl (by decide)

/-- C10: a reply with no text never matches the cancel keyword, and in a
validator-free session it makes `request_user_input` return `None`, the same
return value a timeout produces. -/
theorem c10_textless_reply :
    isCancelText none = false ∧
    (∀ (args : SessionArgs) (rest : List WaitEvent) (sent : List SentMsg)
        (listens : List Nat),
      args.validator = none →
      ShortenerManager.runLoop args (WaitEvent.reply none :: rest) sent
          listens =
        some ⟨none, sent, listens ++ [ShortenerManager.TIMEOUT],
          promptExists args⟩) ∧
    (∀ (args : SessionArgs) (rest : List WaitEvent) (sent : List SentMsg)
        (listens : List Nat),
      args.validator = none →
      (ShortenerManager.runLoop args (WaitEvent.reply none :: rest) sent
          listens).map RunResult.ret =
        (ShortenerManager.runLoop args (WaitEvent.timeout :: rest) sent
          listens).map RunResult.ret) := by
  refine ⟨rfl, ?_, ?_⟩
  · intro args rest sent listens hv
    simp [ShortenerManager.runLoop, hv, isCancelText]
  · intro args rest sent listens hv
    simp [ShortenerManager.runLoop, hv, isCancelText]

/-- C10 witness: the theorem applied to a concrete validator-free run whose
only event is a reply without text. -/
theorem c10_witness :
    ShortenerManager.runLoop ⟨Option.none, Option.none, false⟩
        [WaitEvent.reply none] [] [] =
      some ⟨none, [], [] ++ [ShortenerManager.TIMEOUT],
        promptExists ⟨Option.none, Option.none, false⟩⟩ :=
  c10_textless_reply.2.1 ⟨Option.none, Option.none, false⟩ [] [] [] rfl

/-- C8: the settings store adapter delegates `get_variable` and `set_variable`
directly to the external store, unchanged and uncached, and any error the
store produces is returned to the caller as is. -/
theorem c8_store_adapter :
    (∀ (db : KingDB) (key : String) (d : StoreValue),
      get_variable db key d = db.get_var key d) ∧
    (∀ (db : KingDB) (key : String) (v : StoreValue),
      set_variable db key v = db.set_var key v) ∧
    (∀ (db : KingDB) (key : String) (d : StoreValue) (e : String),
      db.get_var key d = Except.error e →
        get_variable db key d = Except.error e) ∧
    (∀ (db : KingDB) (key : String) (v : StoreValue) (e : String),
      db.set_var key v = Except.error e →
        set_variable db key v = Except.error e) :=
  ⟨fun _ _ _ => rfl, fun _ _ _ => rfl, fun _ _ _ _ h => h, fun _ _ _ _ h => h⟩

/-- C8 witness: the theorem applied to a concrete failing store. -/
theorem c8_witness :
    get_variable failingDB "website" StoreValue.none = Except.error "boom" :=
  c8_store_adapter.2.2.1 failingDB "website" StoreValue.none "boom" rfl

theorem cleanUrl_http (s : String) :
    ∃ ys, UrlParse.cleanUrl ("http://" ++ s).data =
      'h' :: 't' :: 't' :: 'p' :: ':' :: '/' :: '/' :: ys := by
  have hdata : ("http://" ++ s).data =
      'h' :: 't' :: 't' :: 'p' :: ':' :: '/' :: '/' :: s.data := by
    rw [String.data_append]
    rfl
  unfold UrlParse.cleanUrl
  rw [hdata, List.dropWhile_cons_of_neg (by decide)]
  refine ⟨s.data.filter (fun c => !UrlParse.isTabOrNewline c), ?_⟩
  rw [List.filter_cons_of_pos (by decide), List.filter_cons_of_pos (by decide),
    List.filter_cons_of_pos (by decide), List.filter_cons_of_pos (by decide),
    List.filter_cons_of_pos (by decide), List.filter_cons_of_pos (by decide),
    List.filter_cons_of_pos (by decide)]

theorem splitScheme_http (ys : List Char) :
    UrlParse.splitScheme ('h' :: 't' :: 't' :: 'p' :: ':' :: '/' :: '/' :: ys) =
      ("http", '/' :: '/' :: ys) := rfl

theorem parseAfterScheme_scheme (scheme : String) (rest : List Char) :
    (∃ e, UrlParse.parseAfterScheme scheme rest = Except.error e) ∨
    (∃ p, UrlParse.parseAfterScheme scheme rest = Except.ok p ∧
      p.scheme = scheme) := by
  simp only [UrlParse.parseAfterScheme]
  split
  all_goals split
  · exact Or.inl ⟨_, rfl⟩
  · split
    · exact Or.inl ⟨_, rfl⟩
    · exact Or.inr ⟨_, rfl, rfl⟩
  · exact Or.inl ⟨_, rfl⟩
  · split
    · exact Or.inl ⟨_, rfl⟩
    · exact Or.inr ⟨_, rfl, rfl⟩

theorem pyUrlparse_http (s : String) :
    (∃ e, UrlParse.pyUrlparse ("http://" ++ s) = Except.error e) ∨
    (∃ p, UrlParse.pyUrlparse ("http://" ++ s) = Except.ok p ∧
      p.scheme = "http") := by
  obtain ⟨ys, hclean⟩ := cleanUrl_http s
  have heq : UrlParse.pyUrlparse ("http://" ++ s) =
      UrlParse.parseAfterScheme "http" ('/' :: '/' :: ys) := by
    simp only [UrlParse.pyUrlparse, hclean, splitScheme_http]
  rw [heq]
  exact parseAfterScheme_scheme "http" ('/' :: '/' :: ys)

/-- C9: `is_valid_website_url` accepts exactly the URLs that parse without an
exception to scheme `https`, a non-empty netloc, and a path empty apart from
slashes; every `http://` URL is rejected; a parsing exception is caught and
yields `False`; and the listed concrete URLs behave as claimed, including an
invalid bracketed host (rejected by `_check_bracketed_host`), a preserved
trailing space in the path, and a valid bracketed IPv6 host. -/
theorem c9_is_valid_website_url :
    (∀ url : String, URLValidator.is_valid_website_url url = true ↔
      ∃ p : UrlParse.ParseResult, UrlParse.pyUrlparse url = Except.ok p ∧
        p.scheme = "https" ∧ p.netloc ≠ "" ∧
        UrlParse.stripSlashes p.path = "") ∧
    (∀ rest : String,
      URLValidator.is_valid_website_url ("http://" ++ rest) = false) ∧
    (∀ (url : String) (e : String), UrlParse.pyUrlparse url = Except.error e →
      URLValidator.is_valid_website_url url = false) ∧
    URLValidator.is_valid_website_url "https://example.com" = true ∧
    URLValidator.is_valid_website_url "http://example.com" = false ∧
    URLValidator.is_valid_website_url "https://example.com/page" = false ∧
    URLValidator.is_valid_website_url "https://[abc]" = false ∧
    URLValidator.is_valid_website_url "https://example.com/ " = false ∧
    URLValidator.is_valid_website_url "https://[2001:db8::1]" = true := by
  refine ⟨?_, ?_, ?_, by decide, by decide, by decide, by decide, by decide,
    by decide⟩
  · intro url
    unfold URLValidator.is_valid_website_url
    cases h : UrlParse.pyUrlparse url with
    | ok p =>
      simp only [h, Bool.and_eq_true, beq_iff_eq, Bool.not_eq_true',
        beq_eq_false_iff_ne, Except.ok.injEq]
      constructor
      · rintro ⟨⟨h1, h2⟩, h3⟩
        exact ⟨p, rfl, h1, h2, h3⟩
      · rintro ⟨p', hp', h1, h2, h3⟩
        cases hp'
        exact ⟨⟨h1, h2⟩, h3⟩
    | error e =>
      simp [h]
  · intro rest
    rcases pyUrlparse_http rest with ⟨e, he⟩ | ⟨p, hp, hs⟩
    · simp [URLValidator.is_valid_website_url, he]
    · simp only [URLValidator.is_valid_website_url, hp, hs]
      rw [show (("http" : String) == "https") = false from rfl, Bool.false_and,
        Bool.false_and]
  · intro url e h
    simp [URLValidator.is_valid_website_url, h]

/-- C9 witness: the exception-handling clause of the theorem applied to a
concrete URL with a mismatched IPv6 bracket, which makes the parser raise. -/
theorem c9_witness :
    URLValidator.is_valid_website_url "https://[abc" = false :=
  c9_is_valid_website_url.2.2.1 "https://[abc" "Invalid IPv6 URL" rfl
